import Mathlib

/-!
# Verification of the ccnd forwarding engine model

A shallow embedding, in Lean 4, of the parts of `csrc/ccnd/ccnd.c` (and its
header `csrc/ccnd/ccnd_private.h`) that the specification's testable claims
talk about: the face table, the pending-interest table (PIT), the FIB
`forward_to` computation, interest admission and propagation, content-store
insertion, and the input-message dispatcher.

Machine integers are modelled as `Nat`/`Int`; byte strings as `List Nat`;
hash tables as association lists with unique keys; the ccnb wire framing of
a Nonce element (produced by library calls that are outside this source
tree) is elided, keeping the nonce key injective.
-/

namespace Ccnd

/-- A byte string (each element is one byte of the wire message). -/
abbrev Bytes := List Nat

/-! ## Flag constants, from `ccnd_private.h` -/

def CCN_FACE_LINK : Nat := 1
def CCN_FACE_DGRAM : Nat := 2
def CCN_FACE_GG : Nat := 4
def CCN_FACE_LOCAL : Nat := 8
def CCN_FACE_INET : Nat := 16
def CCN_FACE_MCAST : Nat := 32
def CCN_FACE_INET6 : Nat := 64
def CCN_FACE_DC : Nat := 128
def CCN_FACE_NOSEND : Nat := 256
def CCN_FACE_UNDECIDED : Nat := 512
def CCN_FACE_PERMANENT : Nat := 1024

def CCN_CONTENT_ENTRY_SLOWSEND : Nat := 1
def CCN_CONTENT_ENTRY_STALE : Nat := 2
def CCN_CONTENT_ENTRY_PRECIOUS : Nat := 4

def CCN_FORW_ACTIVE : Nat := 1
def CCN_FORW_CHILD_INHERIT : Nat := 2

def CCN_PR_UNSENT : Nat := 1
def CCN_PR_WAIT1 : Nat := 2
def CCN_PR_STUFFED1 : Nat := 4

/-- Modelled from the spec: `CCN_INTEREST_LIFETIME_MICROSEC` is defined in the
`ccn/ccnd.h` header, which is not part of this source tree.  The spec states
the initial interest lifetime as 4 s (and the reaper interval as twice this,
about 8 s), so the value is 4 000 000 microseconds. -/
def CCN_INTEREST_LIFETIME_MICROSEC : Nat := 4000000

/-- C bitwise test `(flags & mask) != 0`. -/
def hasFlag (flags mask : Nat) : Bool := flags.land mask != 0

/-- C bitwise test `(flags & mask) == mask` (all bits of `mask` present). -/
def hasAllFlags (flags mask : Nat) : Bool := flags.land mask == mask

/-- C logical AND on integers: `a && b` yields 1 when both operands are
nonzero and 0 otherwise.  Needed to embed line 2933 of `ccnd.c`, which uses
`&&` where the surrounding code uses the bitwise `&`. -/
def cLogicalAnd (a b : Nat) : Nat := if a ≠ 0 ∧ b ≠ 0 then 1 else 0

/-- Clear the bits of `mask` in `flags` (C `flags &= ~mask`). -/
def clearFlag (flags mask : Nat) : Nat := flags - flags.land mask

/-- Modelled from the spec: `ccn_indexbuf_remove_element` lives in the ccn
library, outside this source tree; per the spec it removes the given faceid
from the outbound set.  Outbound sets are built by set-insertion, so they
never hold duplicates and a filter is exact. -/
def removeElement (l : List Nat) (v : Nat) : List Nat := l.filter (fun x => x ≠ v)

/-- Modelled from the spec: `ccn_indexbuf_set_insert` lives in the ccn
library, outside this source tree; per the spec the recomputed `forward_to`
is a *union* of faceid sets, so the insert is a set-insert (append only when
the element is not already present). -/
def setInsert (l : List Nat) (v : Nat) : List Nat := if v ∈ l then l else l ++ [v]

/-! ## Faces (`struct face`, `ccnd_private.h` lines 140-159) -/

/-- The fields of `struct face` that the claims read: the generation-tagged
identifier, the flag word, and the pending-interest counter. -/
structure Face where
  faceid : Nat
  flags : Nat
  pending_interests : Int
deriving DecidableEq, Repr

/-- `face_from_faceid` (`ccnd.c` lines 178-189): lookup of a live face by its
faceid.  The slot/generation split is represented by keeping the face list
keyed by full faceids, which the generation scheme keeps unique. -/
def face_from_faceid (faces : List Face) (faceid : Nat) : Option Face :=
  faces.find? (fun f => f.faceid == faceid)

/-! ## Claim C10: registration lifetime normalization -/

/-- The lifetime normalization performed by `ccnd_req_prefixreg`
(`ccnd.c` lines 2021-2025):
negative lifetimes become 60, lifetimes strictly between 3600 and `1 << 30`
become 300, everything else passes through. -/
def prefixreg_normalize_lifetime (lifetime : Int) : Int :=
  if lifetime < 0 then 60
  else if 3600 < lifetime ∧ lifetime < 2 ^ 30 then 300
  else lifetime

/-- C10: `ccnd_req_prefixreg` normalizes the requested registration lifetime:
a negative lifetime becomes 60 s, a lifetime strictly greater than 3600 and
strictly less than `2 ^ 30` becomes 300 s, and any lifetime of `2 ^ 30` or
more, as well as any in `[0, 3600]`, is passed through unchanged. -/
theorem C10_prefixreg_lifetime_normalization (t : Int) :
    (t < 0 → prefixreg_normalize_lifetime t = 60) ∧
    (3600 < t → t < 2 ^ 30 → prefixreg_normalize_lifetime t = 300) ∧
    (2 ^ 30 ≤ t → prefixreg_normalize_lifetime t = t) ∧
    (0 ≤ t → t ≤ 3600 → prefixreg_normalize_lifetime t = t) := by
  refine ⟨fun h => ?_, fun h1 h2 => ?_, fun h => ?_, fun h1 h2 => ?_⟩
  · simp [prefixreg_normalize_lifetime, h]
  · rw [prefixreg_normalize_lifetime, if_neg (by omega), if_pos ⟨h1, h2⟩]
  · rw [prefixreg_normalize_lifetime, if_neg (by omega), if_neg (by omega)]
  · rw [prefixreg_normalize_lifetime, if_neg (by omega), if_neg (by omega)]

/-- Concrete instantiations of `C10_prefixreg_lifetime_normalization`
exercising every hypothesis at explicit lifetimes. -/
theorem C10_prefixreg_lifetime_normalization_witness :
    prefixreg_normalize_lifetime (-7) = 60 ∧
    prefixreg_normalize_lifetime 4000 = 300 ∧
    prefixreg_normalize_lifetime (2 ^ 30) = 2 ^ 30 ∧
    prefixreg_normalize_lifetime 3600 = 3600 :=
  ⟨(C10_prefixreg_lifetime_normalization (-7)).1 (by norm_num),
   (C10_prefixreg_lifetime_normalization 4000).2.1 (by norm_num) (by norm_num),
   (C10_prefixreg_lifetime_normalization (2 ^ 30)).2.2.1 le_rfl,
   (C10_prefixreg_lifetime_normalization 3600).2.2.2 (by norm_num) le_rfl⟩

/-! ## Claim C5: the SLOWSEND decision for unrequested content

`process_incoming_content` (`ccnd.c` lines 2927-2934) decides, after a new
ContentObject has been inserted, whether to mark it SLOWSEND:

    if (res == HT_NEW_ENTRY && n_matches == 0 &&
        (face->flags && CCN_FACE_GG) == 0)
        content->flags |= CCN_CONTENT_ENTRY_SLOWSEND;

Note the `&&` between `face->flags` and `CCN_FACE_GG`: a C logical AND, not
the bitwise `&` used everywhere else flags are tested (e.g. line 2591, line
2981).  It is embedded verbatim below via `cLogicalAnd`. -/

/-- The SLOWSEND decision of `process_incoming_content`, embedded with the
logical `&&` the source actually uses. -/
def slowsend_update (res_is_new_entry : Bool) (n_matches : Nat)
    (face_flags : Nat) (content_flags : Nat) : Nat :=
  if res_is_new_entry ∧ n_matches = 0 ∧ cLogicalAnd face_flags CCN_FACE_GG = 0
  then content_flags.lor CCN_CONTENT_ENTRY_SLOWSEND
  else content_flags

/-- The same decision as the spec words it ("arrived from a non-GG face"),
i.e. with the bitwise flag test; kept for comparison with the source. -/
def slowsend_update_intended (res_is_new_entry : Bool) (n_matches : Nat)
    (face_flags : Nat) (content_flags : Nat) : Nat :=
  if res_is_new_entry ∧ n_matches = 0 ∧ hasFlag face_flags CCN_FACE_GG = false
  then content_flags.lor CCN_CONTENT_ENTRY_SLOWSEND
  else content_flags

/-- `choose_content_delay_class` (`ccnd.c` lines 951-964): the delay class
used when enqueueing a content entry toward a face. -/
inductive CqClass where
  | ASAP
  | NORMAL
  | SLOW
deriving DecidableEq, Repr

/-- `choose_content_delay_class` (`ccnd.c` lines 951-964). -/
def choose_content_delay_class (face? : Option Face) (content_flags : Nat) :
    CqClass :=
  match face? with
  | none => .ASAP
  | some face =>
    if hasFlag face.flags (CCN_FACE_LINK.lor CCN_FACE_MCAST) then
      (if hasFlag content_flags CCN_CONTENT_ENTRY_SLOWSEND then .SLOW else .NORMAL)
    else if hasFlag face.flags CCN_FACE_DGRAM then .NORMAL
    else if hasFlag face.flags (CCN_FACE_GG.lor CCN_FACE_LOCAL) then .ASAP
    else .NORMAL

/-- C5: evaluation at the failing input.  A new ContentObject that consumed
no interests and arrived on a face whose flags are `CCN_FACE_INET` (set, but
without GG) does *not* get the SLOWSEND flag under the code as written,
because `(face->flags && CCN_FACE_GG) == 0` is a logical AND that tests
`face->flags == 0`; only a face with no flags at all triggers the mark.  The
spec's intended bitwise test would mark it, and the mark is what routes later
sends of that entry to the SLOW class on a LINK face. -/
theorem C5_slowsend_gg_test_is_logical_and :
    hasFlag CCN_FACE_INET CCN_FACE_GG = false ∧
    slowsend_update true 0 CCN_FACE_INET 0 = 0 ∧
    slowsend_update_intended true 0 CCN_FACE_INET 0 = CCN_CONTENT_ENTRY_SLOWSEND ∧
    slowsend_update true 0 0 0 = CCN_CONTENT_ENTRY_SLOWSEND ∧
    choose_content_delay_class (some ⟨7, CCN_FACE_LINK, 0⟩)
        (slowsend_update true 0 CCN_FACE_INET 0) = .NORMAL ∧
    choose_content_delay_class (some ⟨7, CCN_FACE_LINK, 0⟩)
        (slowsend_update_intended true 0 CCN_FACE_INET 0) = .SLOW := by
  refine ⟨by decide, by decide, by decide, by decide, by decide, by decide⟩

/-! ## Claim C9: ContentObject name-key collisions

The content store keeps each object in a hash table keyed by the initial
portion of the (digest-augmented) ContentObject up to the start of the
Content element; the remaining tail bytes are stored as the entry's
extension (`ccnd.c` lines 2867-2921, `ccnd_private.h` lines 174-183). -/

/-- One `struct content_entry` as it lives in `content_tab`: the hash key
(bytes through the name), the extension (tail bytes), and the flag word. -/
structure ContentEntryRec where
  key : Bytes
  ext : Bytes
  flags : Nat
deriving DecidableEq, Repr

/-- The `content_tab` hash table, as an association list on `key`. -/
abbrev ContentTab := List ContentEntryRec

/-- `hashtb_lookup`-style search of `content_tab` by key bytes. -/
def content_tab_lookup (tab : ContentTab) (key : Bytes) :
    Option ContentEntryRec :=
  tab.find? (fun ce => ce.key == key)

/-- `hashtb_delete`: remove the (unique) entry with the given key. -/
def content_tab_delete (tab : ContentTab) (key : Bytes) : ContentTab :=
  match tab with
  | [] => []
  | ce :: rest =>
    if ce.key = key then rest else ce :: content_tab_delete rest key

/-- How the content-store seek of `process_incoming_content` ended. -/
inductive ContentSeekResult where
  | collisionDeleted
  | freshened
  | duplicate
  | inserted
deriving DecidableEq, Repr

/-- The content-store insertion step of `process_incoming_content`
(`ccnd.c` lines 2870-2921): seek by the name-key bytes; on an old entry,
either detect a name collision (tail bytes differ: log, drop the arrival
*and* delete the stored entry), or freshen a stale duplicate, or count an
exact duplicate; on a new key, enroll the object. -/
def process_content_store (tab : ContentTab) (key tail : Bytes) :
    ContentTab × ContentSeekResult :=
  match content_tab_lookup tab key with
  | some ce =>
    if tail ≠ ce.ext then
      (content_tab_delete tab key, .collisionDeleted)
    else if hasFlag ce.flags CCN_CONTENT_ENTRY_STALE then
      (tab.map (fun ce2 =>
          if ce2.key = key
          then { ce2 with flags := clearFlag ce2.flags CCN_CONTENT_ENTRY_STALE }
          else ce2),
       .freshened)
    else (tab, .duplicate)
  | none => (tab ++ [⟨key, tail, 0⟩], .inserted)

lemma content_tab_lookup_key {tab : ContentTab} {key : Bytes}
    {ce : ContentEntryRec} (h : content_tab_lookup tab key = some ce) :
    ce.key = key := by
  have := List.find?_some h
  simpa using this

lemma content_tab_lookup_mem {tab : ContentTab} {key : Bytes}
    {ce : ContentEntryRec} (h : content_tab_lookup tab key = some ce) :
    ce ∈ tab :=
  List.mem_of_find?_eq_some h

lemma content_tab_lookup_isSome {tab : ContentTab} {key : Bytes}
    {ce : ContentEntryRec} (hmem : ce ∈ tab) (hkey : ce.key = key) :
    (content_tab_lookup tab key).isSome := by
  rw [content_tab_lookup, List.find?_isSome]
  exact ⟨ce, hmem, by simp [hkey]⟩

lemma content_tab_delete_no_key {tab : ContentTab} {key : Bytes}
    (hnodup : (tab.map ContentEntryRec.key).Nodup) :
    ∀ ce ∈ content_tab_delete tab key, ce.key ≠ key := by
  induction tab with
  | nil => simp [content_tab_delete]
  | cons hd tl ih =>
    simp only [List.map_cons, List.nodup_cons] at hnodup
    intro ce hce
    rw [content_tab_delete] at hce
    by_cases hk : hd.key = key
    · rw [if_pos hk] at hce
      intro hcek
      apply hnodup.1
      rw [hk, ← hcek]
      exact List.mem_map_of_mem ContentEntryRec.key hce
    · rw [if_neg hk] at hce
      rcases List.mem_cons.mp hce with rfl | hce'
      · exact hk
      · exact ih hnodup.2 ce hce'

lemma content_tab_delete_sublist (tab : ContentTab) (key : Bytes) :
    (content_tab_delete tab key).Sublist tab := by
  induction tab with
  | nil => simp [content_tab_delete]
  | cons hd tl ih =>
    rw [content_tab_delete]
    by_cases hk : hd.key = key
    · rw [if_pos hk]; exact (List.sublist_cons_self hd tl)
    · rw [if_neg hk]; exact ih.cons₂ hd

lemma nodup_key_unique {tab : ContentTab} {ce ce' : ContentEntryRec}
    (hnodup : (tab.map ContentEntryRec.key).Nodup)
    (hmem : ce ∈ tab) (hmem' : ce' ∈ tab) (hk : ce.key = ce'.key) :
    ce = ce' := by
  induction tab with
  | nil => simp at hmem
  | cons hd tl ih =>
    simp only [List.map_cons, List.nodup_cons] at hnodup
    rcases List.mem_cons.mp hmem with rfl | h1 <;>
      rcases List.mem_cons.mp hmem' with rfl | h2
    · rfl
    · exact absurd (hk ▸ List.mem_map_of_mem ContentEntryRec.key h2) hnodup.1
    · exact absurd (hk ▸ List.mem_map_of_mem ContentEntryRec.key h1) hnodup.1
    · exact ih hnodup.2 h1 h2

/-- C9: if an arriving ContentObject's name-key bytes equal those of a stored
entry but the tail bytes differ, `process_incoming_content` treats it as a
name collision: the stored entry is deleted, the arrival is not inserted, and
no entry with that key remains in the content store. -/
theorem C9_name_collision_deletes_both (tab : ContentTab) (ce : ContentEntryRec)
    (key tail : Bytes)
    (hnodup : (tab.map ContentEntryRec.key).Nodup)
    (hmem : ce ∈ tab) (hkey : ce.key = key) (htail : tail ≠ ce.ext) :
    (process_content_store tab key tail).2 = .collisionDeleted ∧
    (process_content_store tab key tail).1 = content_tab_delete tab key ∧
    (∀ ce2 ∈ (process_content_store tab key tail).1, ce2.key ≠ key) ∧
    (process_content_store tab key tail).1.Sublist tab := by
  obtain ⟨ce', hce'⟩ := Option.isSome_iff_exists.mp
    (content_tab_lookup_isSome hmem hkey)
  have hce'key : ce'.key = key := content_tab_lookup_key hce'
  have hce'mem : ce' ∈ tab := content_tab_lookup_mem hce'
  have hsame : ce = ce' :=
    nodup_key_unique hnodup hmem hce'mem (hkey.trans hce'key.symm)
  subst hsame
  have hred : process_content_store tab key tail =
      (content_tab_delete tab key, .collisionDeleted) := by
    simp only [process_content_store, hce']
    rw [if_pos htail]
  refine ⟨by rw [hred], by rw [hred], ?_, ?_⟩
  · rw [hred]
    exact content_tab_delete_no_key hnodup
  · rw [hred]
    exact content_tab_delete_sublist tab key

/-- Concrete instantiation of `C9_name_collision_deletes_both`: a store with
one entry keyed `[1,2]`, extension `[9]`, hit by an arrival with the same key
and tail `[8]`. -/
theorem C9_name_collision_deletes_both_witness :
    (⟨[1, 2], [9], 0⟩ : ContentEntryRec) ∈ ([⟨[1, 2], [9], 0⟩] : ContentTab) ∧
    (process_content_store [⟨[1, 2], [9], 0⟩] [1, 2] [8]).2 = .collisionDeleted :=
  ⟨by decide,
   (C9_name_collision_deletes_both [⟨[1, 2], [9], 0⟩] ⟨[1, 2], [9], 0⟩
      [1, 2] [8] (by decide) (by decide) (by decide) (by decide)).1⟩

/-! ## Claim C8: PDU unwrapping in `process_input_message`

`process_input_message` (`ccnd.c` lines 3015-3057) skeleton-decodes the
outermost DTAG of a message and dispatches on it.  A `CCNProtocolDataUnit`
wrapper is unwrapped only when the `pdu_ok` argument is nonzero, and the
contained messages are dispatched recursively with `pdu_ok = 0` (the source
comment: "The pdu_ok parameter limits the recursion depth").  The byte-level
skeleton decoder itself lives in the ccn library, outside this source tree,
so messages are modelled as an already-decoded tree of outermost tags. -/

/-- An input message, abstracted to its outermost DTAG: the three dispatched
kinds, a PDU wrapper holding a sequence of contained messages, and anything
else (which `process_input_message` discards as unknown). -/
inductive Msg where
  | interest
  | contentObject
  | contentObjectV20080711
  | inject
  | pdu (msgs : List Msg)
  | unknown

/-- What `process_input_message` does with one decoded message. -/
inductive MsgAction where
  | handleInterest
  | handleContent
  | handleInject
  | discard
deriving DecidableEq, Repr

mutual

/-- `process_input_message` (`ccnd.c` lines 3015-3057), as the sequence of
dispatch actions it performs.  The PDU branch also sets `CCN_FACE_LINK` and
clears `CCN_FACE_GG` on the face; those flag updates are not claimed here
and are elided. -/
def process_input_message (pdu_ok : Bool) : Msg → List MsgAction
  | .pdu msgs => if pdu_ok then process_pdu_contents msgs else [.discard]
  | .interest => [.handleInterest]
  | .contentObject => [.handleContent]
  | .contentObjectV20080711 => [.handleContent]
  | .inject => [.handleInject]
  | .unknown => [.discard]

/-- The `while` loop of the PDU branch (`ccnd.c` lines 3033-3039): each
contained message is dispatched with `pdu_ok = 0`. -/
def process_pdu_contents : List Msg → List MsgAction
  | [] => []
  | m :: rest => process_input_message false m ++ process_pdu_contents rest

end

lemma process_pdu_contents_eq_flatMap (msgs : List Msg) :
    process_pdu_contents msgs = msgs.flatMap (process_input_message false) := by
  induction msgs with
  | nil => rfl
  | cons hd tl ih => rw [process_pdu_contents, ih, List.flatMap_cons]

/-- C8: a PDU is unwrapped at most one level deep.  With `pdu_ok` set, the
messages contained in a PDU are each dispatched with `pdu_ok = 0`; under
`pdu_ok = 0` a nested PDU is not unwrapped but discarded as an unknown
message, while Interest, ContentObject (either format) and Inject messages
are processed normally. -/
theorem C8_pdu_recursion_depth_one (msgs inner : List Msg) :
    process_input_message true (.pdu msgs) =
      msgs.flatMap (process_input_message false) ∧
    process_input_message false (.pdu inner) = [.discard] ∧
    process_input_message true (.pdu [.pdu inner]) = [.discard] ∧
    process_input_message false .interest = [.handleInterest] ∧
    process_input_message false .contentObject = [.handleContent] ∧
    process_input_message false .contentObjectV20080711 = [.handleContent] ∧
    process_input_message false .inject = [.handleInject] ∧
    process_input_message true
        (.pdu [.interest, .contentObject, .inject]) =
      [.handleInterest, .handleContent, .handleInject] := by
  refine ⟨?_, ?_, ?_, ?_, ?_, ?_, ?_, ?_⟩
  · rw [process_input_message, if_pos rfl, process_pdu_contents_eq_flatMap]
  · rw [process_input_message, if_neg (by simp)]
  · rw [process_input_message, if_pos rfl, process_pdu_contents,
      process_pdu_contents, process_input_message, if_neg (by simp)]
    rfl
  · rw [process_input_message]
  · rw [process_input_message]
  · rw [process_input_message]
  · rw [process_input_message]
  · rw [process_input_message, if_pos rfl]
    rw [process_pdu_contents, process_pdu_contents, process_pdu_contents,
      process_pdu_contents]
    rw [process_input_message, process_input_message, process_input_message]
    rfl

/-! ## Claim C4: `update_forward_to` and FIB inheritance

The name-prefix table (`ccnd_private.h` lines 185-199) hangs a list of
`ccn_forwarding` records off each prefix entry and links each entry to its
parent (the next-shorter prefix).  The parent chain is linear, so a prefix
entry is modelled by its own forwarding list together with the forwarding
lists of its ancestors, nearest first. -/

/-- One `struct ccn_forwarding` record (faceid, flags); the `expires` field
is not read by `update_forward_to` and is omitted. -/
structure CcnForwarding where
  faceid : Nat
  flags : Nat
deriving DecidableEq, Repr

/-- A `struct nameprefix_entry`, flattened along its `parent` chain:
`forwarding` is the entry's own list, `ancestors` the forwarding lists of
parent, grandparent, ..., root. -/
structure NPE where
  forwarding : List CcnForwarding
  ancestors : List (List CcnForwarding)
  src : Nat
  osrc : Nat
  usec : Nat
deriving DecidableEq, Repr

/-- The condition of the `update_inherited` loop body (`ccnd.c` lines
2063-2064): both wanted bits present and the face alive. -/
def inheritWanted (alive : Nat → Bool) (f : CcnForwarding) : Bool :=
  hasAllFlags f.flags (CCN_FORW_CHILD_INHERIT.lor CCN_FORW_ACTIVE) &&
    alive f.faceid

/-- The condition of the `update_forward_to` own-records loop body
(`ccnd.c` lines 2087-2088): the ACTIVE bit present and the face alive. -/
def activeWanted (alive : Nat → Bool) (f : CcnForwarding) : Bool :=
  hasFlag f.flags CCN_FORW_ACTIVE && alive f.faceid

/-- The inner `for` loop shared by `update_inherited` and
`update_forward_to`: walk one forwarding list, set-inserting the faceids of
the records satisfying the given condition. -/
def addWantedFaceids (want : CcnForwarding → Bool) :
    List CcnForwarding → List Nat → List Nat
  | [], acc => acc
  | f :: rest, acc =>
    addWantedFaceids want rest
      (if want f then setInsert acc f.faceid else acc)

/-- `update_inherited` (`ccnd.c` lines 2055-2071): walk the given prefix
entry and all of its ancestors, set-inserting the faceid of every forwarding
record that has both `CCN_FORW_CHILD_INHERIT` and `CCN_FORW_ACTIVE` set and
whose face is alive. -/
def update_inherited (alive : Nat → Bool) :
    List (List CcnForwarding) → List Nat → List Nat
  | [], x => x
  | fl :: rest, x =>
    update_inherited alive rest (addWantedFaceids (inheritWanted alive) fl x)

/-- `update_forward_to` (`ccnd.c` lines 2077-2098): recompute the cached
outbound set as the faceids of the entry's own ACTIVE forwardings whose face
is alive, then the inherited ones from all ancestors.  (When the result is
empty the C code frees the buffer and leaves `forward_to` NULL; both denote
the empty set, so the empty list is returned here.) -/
def update_forward_to (alive : Nat → Bool) (npe : NPE) : List Nat :=
  update_inherited alive npe.ancestors
    (addWantedFaceids (activeWanted alive) npe.forwarding [])

lemma mem_setInsert (x : List Nat) (v w : Nat) :
    w ∈ setInsert x v ↔ w ∈ x ∨ w = v := by
  rw [setInsert]
  by_cases h : v ∈ x
  · rw [if_pos h]
    constructor
    · exact Or.inl
    · rintro (hw | rfl)
      · exact hw
      · exact h
  · rw [if_neg h]
    simp

lemma mem_addWantedFaceids (want : CcnForwarding → Bool)
    (fl : List CcnForwarding) (acc : List Nat) (w : Nat) :
    w ∈ addWantedFaceids want fl acc ↔
      w ∈ acc ∨ ∃ f ∈ fl, want f = true ∧ f.faceid = w := by
  induction fl generalizing acc with
  | nil => simp [addWantedFaceids]
  | cons hd tl ih =>
    rw [addWantedFaceids]
    by_cases hp : want hd = true
    · rw [if_pos hp, ih, mem_setInsert]
      constructor
      · rintro (⟨hw | rfl⟩ | ⟨f, hf, hpf, rfl⟩)
        · exact Or.inl hw
        · exact Or.inr ⟨hd, List.mem_cons_self hd tl, hp, rfl⟩
        · exact Or.inr ⟨f, List.mem_cons_of_mem hd hf, hpf, rfl⟩
      · rintro (hw | ⟨f, hf, hpf, rfl⟩)
        · exact Or.inl (Or.inl hw)
        · rcases List.mem_cons.mp hf with rfl | hf'
          · exact Or.inl (Or.inr rfl)
          · exact Or.inr ⟨f, hf', hpf, rfl⟩
    · rw [if_neg hp, ih]
      constructor
      · rintro (hw | ⟨f, hf, hpf, rfl⟩)
        · exact Or.inl hw
        · exact Or.inr ⟨f, List.mem_cons_of_mem hd hf, hpf, rfl⟩
      · rintro (hw | ⟨f, hf, hpf, rfl⟩)
        · exact Or.inl hw
        · rcases List.mem_cons.mp hf with rfl | hf'
          · exact absurd hpf hp
          · exact Or.inr ⟨f, hf', hpf, rfl⟩

lemma mem_update_inherited (alive : Nat → Bool)
    (chain : List (List CcnForwarding)) (x : List Nat) (w : Nat) :
    w ∈ update_inherited alive chain x ↔
      w ∈ x ∨ ∃ fl ∈ chain, ∃ f ∈ fl,
        inheritWanted alive f = true ∧ f.faceid = w := by
  induction chain generalizing x with
  | nil => simp [update_inherited]
  | cons hd tl ih =>
    rw [update_inherited, ih, mem_addWantedFaceids]
    constructor
    · rintro ((hw | ⟨f, hf, hc, rfl⟩) | ⟨fl, hfl, f, hf, hc, rfl⟩)
      · exact Or.inl hw
      · exact Or.inr ⟨hd, List.mem_cons_self hd tl, f, hf, hc, rfl⟩
      · exact Or.inr ⟨fl, List.mem_cons_of_mem hd hfl, f, hf, hc, rfl⟩
    · rintro (hw | ⟨fl, hfl, f, hf, hc, rfl⟩)
      · exact Or.inl (Or.inl hw)
      · rcases List.mem_cons.mp hfl with rfl | hfl'
        · exact Or.inl (Or.inr ⟨f, hf, hc, rfl⟩)
        · exact Or.inr ⟨fl, hfl', f, hf, hc, rfl⟩

/-- The alive test and flag word of the example face table used in the
concrete FIB-inheritance scenario: F2 (the arrival face) and F5 are live. -/
def c4_example_faces : List Face :=
  [⟨2, CCN_FACE_INET, 0⟩, ⟨5, CCN_FACE_INET, 0⟩]

/-- The `/a/b/c` prefix entry of the scenario: no direct forwarding; its
ancestors are `/a/b` (no forwarding), `/a` (F5 registered with
`CCN_FORW_CHILD_INHERIT | CCN_FORW_ACTIVE`), and the root (no forwarding). -/
def c4_npe_abc : NPE :=
  ⟨[], [[], [⟨5, CCN_FORW_CHILD_INHERIT.lor CCN_FORW_ACTIVE⟩], []], 0, 0, 0⟩

/-- C4: after `update_forward_to(npe)` runs, `npe->forward_to` holds exactly
the union of (a) the faceids of ACTIVE forwarding records on `npe` with a
live face and (b) the faceids of ACTIVE+CHILD_INHERIT forwarding records on
every ancestor prefix with a live face; consequently, in the concrete
scenario, an Interest for `/a/b/c` finds F5 — registered at `/a` with
`CHILD_INHERIT|ACTIVE` — in the recomputed outbound set of `/a/b/c`, which
has no direct forwarding. -/
theorem C4_update_forward_to_inheritance :
    (∀ (alive : Nat → Bool) (npe : NPE) (w : Nat),
      w ∈ update_forward_to alive npe ↔
        ((∃ f ∈ npe.forwarding,
            (hasFlag f.flags CCN_FORW_ACTIVE = true ∧ alive f.faceid = true) ∧
            f.faceid = w) ∨
         (∃ fl ∈ npe.ancestors, ∃ f ∈ fl,
            (hasAllFlags f.flags
                (CCN_FORW_CHILD_INHERIT.lor CCN_FORW_ACTIVE) = true ∧
              alive f.faceid = true) ∧ f.faceid = w))) ∧
    update_forward_to
        (fun fid => (face_from_faceid c4_example_faces fid).isSome)
        c4_npe_abc = [5] := by
  constructor
  · intro alive npe w
    rw [update_forward_to, mem_update_inherited, mem_addWantedFaceids]
    simp only [inheritWanted, activeWanted, Bool.and_eq_true,
      List.not_mem_nil, false_or]
  · rfl

/-! ## PIT entries (`struct propagating_entry`, `ccnd_private.h` lines 255-263)

A propagating (PIT) entry is keyed in `propagating_tab` by the Nonce bytes of
its Interest.  `interest_msg` becomes NULL when the entry is consumed. -/

/-- One `struct propagating_entry`, together with its hashtable key. -/
structure PropEntry where
  nonce : Bytes
  interest_msg : Option Bytes
  size : Nat
  faceid : Nat
  usec : Int
  outbound : Option (List Nat)
  flags : Nat
deriving DecidableEq, Repr

/-! ## Claim C7: similar-interest suppression

`adjust_outbound_for_existing_interests` (`ccnd.c` lines 2248-2328) walks
the propagating list of the Interest's prefix, comparing wire bytes outside
the Nonce region. -/

/-- The similarity test of the loop (`ccnd.c` lines 2272-2276): a live entry
(`interest_msg` non-NULL, `usec > 0`) strictly longer than `presize +
postsize` whose bytes before the Nonce and after the Nonce both match the
new message.  `nonceB`/`nonceE` are `pi->offset[CCN_PI_B_Nonce]` and
`pi->offset[CCN_PI_E_Nonce]`; the message ends at `pi->offset[CCN_PI_E] =
msg.length`. -/
def similarInterest (msg : Bytes) (nonceB nonceE : Nat) (p : PropEntry) :
    Bool :=
  let presize := nonceB
  let postsize := msg.length - nonceE
  match p.interest_msg with
  | none => false
  | some im =>
    decide (presize + postsize < p.size) && decide (0 < p.usec) &&
      (im.take presize == msg.take presize) &&
      ((im.drop (p.size - postsize)).take postsize ==
        (msg.drop nonceE).take postsize)

/-- The `for` loop of `adjust_outbound_for_existing_interests`
(`ccnd.c` lines 2271-2325), over the prefix's propagating list.  The
accumulator mirrors `outbound` (whose element count `n` is the list length),
the same-face counter `k`, and `extra_delay`. -/
def adjust_outbound_loop (faces : List Face) (face : Face) (msg : Bytes)
    (nonceB nonceE : Nat) (npeUsec : Nat) (maxRedundant : Nat) :
    List PropEntry → List Nat → Nat → Int → (List Nat × Int)
  | [], outbound, _, extra => (outbound, extra)
  | p :: rest, outbound, k, extra =>
    if outbound.length = 0 then (outbound, extra)
    else if similarInterest msg nonceB nonceE p then
      if p.faceid = face.faceid then
        if k + 1 < maxRedundant then
          adjust_outbound_loop faces face msg nonceB nonceE npeUsec
            maxRedundant rest outbound (k + 1)
            (extra + (npeUsec : Int) + 20000)
        else ([], 0)
      else
        match face_from_faceid faces p.faceid with
        | none =>
          adjust_outbound_loop faces face msg nonceB nonceE npeUsec
            maxRedundant rest outbound k extra
        | some otherface =>
          if p.faceid ∈ outbound then
            adjust_outbound_loop faces face msg nonceB nonceE npeUsec
              maxRedundant rest [p.faceid] k
              (if hasFlag otherface.flags (CCN_FACE_MCAST.lor CCN_FACE_LINK)
               then extra + (npeUsec : Int) + 10000
               else extra)
          else
            adjust_outbound_loop faces face msg nonceB nonceE npeUsec
              maxRedundant rest [] k extra
    else
      adjust_outbound_loop faces face msg nonceB nonceE npeUsec
        maxRedundant rest outbound k extra

/-- `adjust_outbound_for_existing_interests` (`ccnd.c` lines 2248-2328):
`max_redundant` is 3, or 0 when the arrival face is multicast/link-framed;
then the loop above runs over the prefix's propagating list. -/
def adjust_outbound_for_existing_interests (faces : List Face) (face : Face)
    (msg : Bytes) (nonceB nonceE : Nat) (npe : NPE)
    (pList : List PropEntry) (outbound : List Nat) : List Nat × Int :=
  adjust_outbound_loop faces face msg nonceB nonceE npe.usec
    (if hasFlag face.flags (CCN_FACE_MCAST.lor CCN_FACE_LINK) = true
     then 0 else 3)
    pList outbound 0 0

lemma adjust_loop_all_same (faces : List Face) (face : Face) (msg : Bytes)
    (nonceB nonceE : Nat) (u : Nat) (l : List PropEntry) (ob : List Nat)
    (k : Nat) (extra : Int) (hob : ob ≠ []) (hk : k < 3)
    (hall : ∀ p ∈ l, similarInterest msg nonceB nonceE p = true ∧
      p.faceid = face.faceid) :
    adjust_outbound_loop faces face msg nonceB nonceE u 3 l ob k extra =
      if l.length + k < 3
      then (ob, extra + (l.length : Int) * ((u : Int) + 20000))
      else ([], 0) := by
  induction l generalizing k extra with
  | nil =>
    rw [adjust_outbound_loop, if_pos (by simp only [List.length_nil]; omega)]
    simp
  | cons p rest ih =>
    have hp := hall p (List.mem_cons_self p rest)
    have hrest : ∀ q ∈ rest, similarInterest msg nonceB nonceE q = true ∧
        q.faceid = face.faceid :=
      fun q hq => hall q (List.mem_cons_of_mem p hq)
    rw [adjust_outbound_loop,
      if_neg (by simpa [List.length_eq_zero] using hob),
      if_pos hp.1, if_pos hp.2]
    by_cases hk1 : k + 1 < 3
    · rw [if_pos hk1, ih (k + 1) (extra + (u : Int) + 20000) hk1 hrest]
      by_cases hlen : rest.length + (k + 1) < 3
      · rw [if_pos hlen, if_pos (by simp only [List.length_cons]; omega)]
        simp only [List.length_cons]
        congr 1
        push_cast
        ring
      · rw [if_neg hlen, if_neg (by simp only [List.length_cons]; omega)]
    · rw [if_neg hk1, if_neg (by simp only [List.length_cons]; omega)]

/-- C7: when a new Interest from face F is equivalent (equal bytes outside
the Nonce region) to the live propagating interests from the same face F on
the same prefix, redundant copies are admitted only while fewer than 3
similar entries are live — so at most 3 same-face copies coexist — and the
arrival's extra propagation delay is `npe->usec + 20000` microseconds per
live similar entry; once 3 similar entries are live, the new Interest's
outbound set is emptied and it is dropped with zero extra delay. -/
theorem C7_same_face_redundancy_limit (faces : List Face) (face : Face)
    (msg : Bytes) (nonceB nonceE : Nat) (npe : NPE) (pList : List PropEntry)
    (outbound : List Nat)
    (hface : hasFlag face.flags (CCN_FACE_MCAST.lor CCN_FACE_LINK) = false)
    (hout : outbound ≠ [])
    (hall : ∀ p ∈ pList, similarInterest msg nonceB nonceE p = true ∧
      p.faceid = face.faceid) :
    (pList.length ≤ 2 →
      adjust_outbound_for_existing_interests faces face msg nonceB nonceE npe
          pList outbound =
        (outbound, (pList.length : Int) * ((npe.usec : Int) + 20000))) ∧
    (3 ≤ pList.length →
      adjust_outbound_for_existing_interests faces face msg nonceB nonceE npe
          pList outbound = ([], 0)) := by
  have h := adjust_loop_all_same faces face msg nonceB nonceE npe.usec pList
    outbound 0 0 hout (by omega) hall
  have hmax : (if hasFlag face.flags (CCN_FACE_MCAST.lor CCN_FACE_LINK) = true
      then (0 : Nat) else 3) = 3 := by
    rw [hface]
    rfl
  constructor
  · intro hlen
    rw [if_pos (by omega)] at h
    rw [adjust_outbound_for_existing_interests, hmax, h]
    simp
  · intro hlen
    rw [if_neg (by omega)] at h
    rw [adjust_outbound_for_existing_interests, hmax, h]

/-- The concrete face, message and similar PIT entry used to instantiate
`C7_same_face_redundancy_limit`: message bytes `[10, 77, 11]` with the Nonce
occupying byte 1, and an existing same-face entry whose bytes differ only in
that Nonce byte. -/
def c7_entry : PropEntry :=
  ⟨[99], some [10, 99, 11], 3, 2, 100, some [5], 0⟩

/-- Concrete instantiation of `C7_same_face_redundancy_limit`: with one
similar same-face entry live the outbound set survives and the extra delay
is `npe.usec + 20000 = 20100`; with three live copies the arrival is dropped
with empty outbound and zero delay. -/
theorem C7_same_face_redundancy_limit_witness :
    (∀ p ∈ [c7_entry], similarInterest [10, 77, 11] 1 2 p = true ∧
      p.faceid = 2) ∧
    adjust_outbound_for_existing_interests [⟨2, CCN_FACE_INET, 0⟩]
        ⟨2, CCN_FACE_INET, 0⟩ [10, 77, 11] 1 2 ⟨[], [], 0, 0, 100⟩
        [c7_entry] [5] = ([5], 20100) ∧
    adjust_outbound_for_existing_interests [⟨2, CCN_FACE_INET, 0⟩]
        ⟨2, CCN_FACE_INET, 0⟩ [10, 77, 11] 1 2 ⟨[], [], 0, 0, 100⟩
        [c7_entry, c7_entry, c7_entry] [5] = ([], 0) := by
  refine ⟨by decide, ?_, ?_⟩
  · have := (C7_same_face_redundancy_limit [⟨2, CCN_FACE_INET, 0⟩]
      ⟨2, CCN_FACE_INET, 0⟩ [10, 77, 11] 1 2 ⟨[], [], 0, 0, 100⟩
      [c7_entry] [5] (by decide) (by decide) (by decide)).1 (by decide)
    simpa using this
  · exact (C7_same_face_redundancy_limit [⟨2, CCN_FACE_INET, 0⟩]
      ⟨2, CCN_FACE_INET, 0⟩ [10, 77, 11] 1 2 ⟨[], [], 0, 0, 100⟩
      [c7_entry, c7_entry, c7_entry] [5] (by decide) (by decide)
      (by decide)).2 (by decide)

/-! ## Interest processing: `process_incoming_interest` and
`propagate_interest`

The daemon state visible to these functions: the face table, the
`propagating_tab` PIT keyed by Nonce bytes, the queue of `do_propagate`
events handed to the scheduler, and the two message counters the interest
path touches.  The content-store walk of lines 2639-2714 traverses the
skiplist; its outcome is abstracted as an oracle (`CSOracle`), since the
claims under proof only depend on whether a match was found and whether the
matched content was already queued toward the face. -/

/-- A parsed Interest (`struct ccn_parsed_interest`): the wire bytes and the
offsets/fields that the embedded functions read.  `nonceB`/`nonceE` bound
the Nonce region, `otherB` is `offset[CCN_PI_B_OTHER]`, `scope` is -1 when
absent, and `aok_cs` is the `CCN_AOK_CS` bit of `answerfrom`. -/
structure PInterest where
  msg : Bytes
  nonceB : Nat
  nonceE : Nat
  otherB : Nat
  scope : Int
  aok_cs : Bool
deriving DecidableEq, Repr

/-- The bytes of the Nonce region of an Interest message (the
`propagating_tab` hash key for an Interest that carries a Nonce). -/
def nonceRegion (pi : PInterest) : Bytes :=
  (pi.msg.drop pi.nonceB).take (pi.nonceE - pi.nonceB)

/-- The daemon state threaded through interest processing. -/
structure DState where
  faces : List Face
  propagating : List PropEntry
  scheduled : List (Int × Bytes)
  interests_dropped : Nat
  interests_accepted : Nat
deriving DecidableEq, Repr

/-- `hashtb_lookup` on `propagating_tab`, by Nonce bytes. -/
def propagating_lookup (tab : List PropEntry) (key : Bytes) :
    Option PropEntry :=
  tab.find? (fun pe => pe.nonce == key)

/-- The outbound adjustment both `is_duplicate_flooded` and the
`HT_OLD_ENTRY` arm of `propagate_interest` perform: remove the arriving
faceid from the outbound set of the entry keyed by `key` (a no-op when the
entry's outbound is NULL).  The update is written as a map over the table;
hash keys are unique, so exactly the looked-up entry changes. -/
def remove_from_outbound (tab : List PropEntry) (key : Bytes) (faceid : Nat) :
    List PropEntry :=
  tab.map (fun q =>
    if q.nonce = key
    then { q with outbound := q.outbound.map (fun l => removeElement l faceid) }
    else q)

/-- `is_duplicate_flooded` (`ccnd.c` lines 2441-2457): an Interest with a
Nonce whose bytes already key a propagating entry is a duplicate; the
arriving face is removed from that entry's outbound set. -/
def is_duplicate_flooded (s : DState) (pi : PInterest) (faceid : Nat) :
    DState × Bool :=
  if pi.nonceE - pi.nonceB = 0 then (s, false)
  else
    match propagating_lookup s.propagating (nonceRegion pi) with
    | some _ =>
      ({ s with propagating :=
          remove_from_outbound s.propagating (nonceRegion pi) faceid }, true)
    | none => (s, false)

/-- The nonce synthesis of `propagate_interest` (`ccnd.c` lines 2361-2373):
6 bytes, byte `i` being `(nrand48(h->seed) >> i)` truncated to a byte.  The
surrounding ccnb Nonce-element framing (fixed header and closer emitted by
`ccn_charbuf_append_tt`, a library call outside this source tree) is elided;
the key stays injective in the 6 random bytes. -/
def synthNonceBytes (rng : Nat → Nat) : Bytes :=
  (List.range 6).map (fun i => rng i / 2 ^ i % 256)

/-- `pe_next_usec` (`ccnd.c` lines 2143-2164): clamp the requested delay to
the entry's remaining lifetime, deduct it, and return (new remaining
lifetime, granted delay). -/
def pe_next_usec (peUsec next_delay : Int) : Int × Int :=
  if next_delay > peUsec then (peUsec - peUsec, peUsec)
  else (peUsec - next_delay, next_delay)

lemma pe_next_usec_sum (u d : Int) :
    (pe_next_usec u d).1 + (pe_next_usec u d).2 = u := by
  rw [pe_next_usec]
  split <;> ring

/-- `npe->src` / `npe->osrc` start as `~0` (`ccnd.c` line 2519); the C
unsigned all-ones value. -/
def UNDEF_SRC : Nat := 4294967295

/-- Modelled from the spec: `ccn_indexbuf_move_to_end` lives in the ccn
library, outside this source tree; per the spec the history-surfaced
candidates are moved to the tail of the outbound list. -/
def moveToEnd (l : List Nat) (v : Nat) : List Nat :=
  if v ∈ l then l.filter (fun x => x ≠ v) ++ [v] else l

/-- `reorder_outbound_using_history` (`ccnd.c` lines 1234-1243). -/
def reorder_outbound_using_history (npe : NPE) (outbound : List Nat) :
    List Nat :=
  let ob1 := if npe.osrc ≠ UNDEF_SRC then moveToEnd outbound npe.osrc
             else outbound
  if npe.src ≠ UNDEF_SRC then moveToEnd ob1 npe.src else ob1

/-- `propagate_interest` (`ccnd.c` lines 2333-2434).  `npeList` is the
propagating list hanging off `npe` (the intrusive linkage is elided from
`DState`); `rng` supplies the `nrand48` draws for the synthesized nonce and
`r` the draw for the initial delay. -/
def propagate_interest (s : DState) (face : Face) (pi : PInterest)
    (npe : NPE) (npeList : List PropEntry) (outbound : Option (List Nat))
    (rng : Nat → Nat) (r : Nat) : DState × Int :=
  let adj : Option (List Nat) × Int :=
    match outbound with
    | some ob =>
      let a := adjust_outbound_for_existing_interests s.faces face pi.msg
        pi.nonceB pi.nonceE npe npeList ob
      if a.1 = [] then (none, a.2)
      else (some (reorder_outbound_using_history npe a.1), a.2)
    | none => (none, 0)
  let outbound2 := adj.1
  let extra_delay := adj.2
  let key := if pi.nonceB = pi.nonceE then synthNonceBytes rng
             else nonceRegion pi
  let msg_out := if pi.nonceB = pi.nonceE
    then pi.msg.take pi.nonceB ++ key ++ pi.msg.drop pi.otherB
    else pi.msg
  match propagating_lookup s.propagating key with
  | some _ =>
    ({ s with propagating :=
        remove_from_outbound s.propagating key face.faceid }, -1)
  | none =>
    let unsent : Bool :=
      match outbound2 with
      | some l => decide (l ≠ []) && (l.getLast? == some npe.src) &&
          decide (extra_delay = 0)
      | none => false
    let delaymask : Nat := if unsent then 0xFF else 0xFFF
    let usecReq : Int :=
      match outbound2 with
      | none => (CCN_INTEREST_LIFETIME_MICROSEC : Int)
      | some _ => ((r.land delaymask : Nat) : Int) + 1 + extra_delay
    let ud := pe_next_usec (CCN_INTEREST_LIFETIME_MICROSEC : Int) usecReq
    let pe : PropEntry := ⟨key, some msg_out, msg_out.length, face.faceid,
      ud.1, outbound2, if unsent then CCN_PR_UNSENT else 0⟩
    ({ s with
        propagating := pe :: s.propagating,
        scheduled := (ud.2, key) :: s.scheduled,
        faces := s.faces.map (fun f =>
          if f.faceid = face.faceid
          then { f with pending_interests := f.pending_interests + 1 }
          else f) }, 0)

/-- The `for` loop of `get_outbound_faces` (`ccnd.c` lines 2130-2139),
applied to the already-reversed `forward_to`: keep faceids whose face is
alive, is not the arrival face, and carries all bits of `checkmask`. -/
def get_outbound_loop (faces : List Face) (fromId : Nat) (checkmask : Nat) :
    List Nat → List Nat
  | [] => []
  | fid :: rest =>
    match face_from_faceid faces fid with
    | some f =>
      if f.faceid ≠ fromId ∧ hasAllFlags f.flags checkmask = true
      then f.faceid :: get_outbound_loop faces fromId checkmask rest
      else get_outbound_loop faces fromId checkmask rest
    | none => get_outbound_loop faces fromId checkmask rest

/-- `get_outbound_faces` (`ccnd.c` lines 2109-2141): recompute `forward_to`
(the lazy generation check always recomputes here), return the empty set for
scope 0 or an empty `forward_to`, and otherwise walk `forward_to` in reverse
order, restricting to GG faces when scope is 1 and excluding the arrival
face. -/
def get_outbound_faces (faces : List Face) (fromFace : Face)
    (pi : PInterest) (npe : NPE) : List Nat :=
  let fwd := update_forward_to
    (fun fid => (face_from_faceid faces fid).isSome) npe
  if pi.scope = 0 ∨ fwd = [] then []
  else
    get_outbound_loop faces fromFace.faceid
      (if pi.scope = 1 then CCN_FACE_GG else 0) fwd.reverse

/-- The abstract outcome of the content-store walk of
`process_incoming_interest` (`ccnd.c` lines 2639-2714). -/
structure CSOracle where
  matchFound : Bool
  alreadyQueued : Bool
deriving DecidableEq, Repr

/-- How `process_incoming_interest` disposed of an Interest. -/
inductive IOutcome where
  | outOfScope
  | dupDropped
  | served (newPIT : Bool)
  | propagated
  | noPropagation
deriving DecidableEq, Repr

/-- The result of processing one Interest: the new daemon state, whether the
content store was consulted, and the disposition. -/
structure IResult where
  state : DState
  csConsulted : Bool
  outcome : IOutcome
deriving DecidableEq, Repr

/-- `process_incoming_interest` (`ccnd.c` lines 2565-2721), for a
successfully parsed Interest: the scope/GG admission test (lines 2590-2593),
the duplicate-nonce test (lines 2594-2598), the optional content-store
consultation (lines 2639-2714, abstracted by `cs`; a hit enqueues the
content and — unless it is already queued — creates a transient PIT entry
with NULL outbound that `match_interests` then consumes, the consumption
being elided), and propagation for unmatched interests with nonzero scope
(lines 2715-2717). -/
def process_incoming_interest (s : DState) (face : Face) (pi : PInterest)
    (npe : NPE) (npeList : List PropEntry) (cs : CSOracle)
    (rng : Nat → Nat) (r : Nat) : IResult :=
  if 0 ≤ pi.scope ∧ pi.scope < 2 ∧ hasFlag face.flags CCN_FACE_GG = false
  then ⟨s, false, .outOfScope⟩
  else
    let sd := is_duplicate_flooded s pi face.faceid
    if sd.2 then
      ⟨{ sd.1 with interests_dropped := sd.1.interests_dropped + 1 },
       false, .dupDropped⟩
    else
      let s2 := { sd.1 with
        interests_accepted := sd.1.interests_accepted + 1 }
      if pi.aok_cs ∧ cs.matchFound = true then
        if cs.alreadyQueued then ⟨s2, true, .served false⟩
        else
          ⟨(propagate_interest s2 face pi npe npeList none rng r).1,
           true, .served true⟩
      else if pi.scope ≠ 0 then
        ⟨(propagate_interest s2 face pi npe npeList
            (some (get_outbound_faces s2.faces face pi npe)) rng r).1,
         pi.aok_cs, .propagated⟩
      else ⟨s2, pi.aok_cs, .noPropagation⟩

lemma propagating_lookup_isSome {tab : List PropEntry} {key : Bytes}
    {pe : PropEntry} (hmem : pe ∈ tab) (hkey : pe.nonce = key) :
    (propagating_lookup tab key).isSome := by
  rw [propagating_lookup, List.find?_isSome]
  exact ⟨pe, hmem, by simp [hkey]⟩

lemma remove_from_outbound_length (tab : List PropEntry) (key : Bytes)
    (faceid : Nat) :
    (remove_from_outbound tab key faceid).length = tab.length := by
  rw [remove_from_outbound, List.length_map]

/-- C6: for an accepted Interest that carries no Nonce (empty Nonce region),
`propagate_interest` synthesizes a 6-byte random nonce, keys the newly
created PIT entry by that nonce, and initializes the entry's lifetime to
`CCN_INTEREST_LIFETIME_MICROSEC` = 4 000 000 µs = 4 s: the entry's remaining
lifetime plus the granted initial propagation delay equals 4 s. -/
theorem C6_synthesized_nonce_and_lifetime (s : DState) (face : Face)
    (pi : PInterest) (npe : NPE) (npeList : List PropEntry)
    (outbound : Option (List Nat)) (rng : Nat → Nat) (r : Nat)
    (hnon : pi.nonceB = pi.nonceE)
    (hfresh : propagating_lookup s.propagating (synthNonceBytes rng) = none) :
    (propagate_interest s face pi npe npeList outbound rng r).2 = 0 ∧
    ∃ pe d,
      (propagate_interest s face pi npe npeList outbound rng r).1.propagating
        = pe :: s.propagating ∧
      (propagate_interest s face pi npe npeList outbound rng r).1.scheduled
        = (d, pe.nonce) :: s.scheduled ∧
      pe.nonce = synthNonceBytes rng ∧
      pe.nonce.length = 6 ∧
      pe.usec + d = (CCN_INTEREST_LIFETIME_MICROSEC : Int) ∧
      (CCN_INTEREST_LIFETIME_MICROSEC : Int) = 4000000 := by
  have hkey : (if pi.nonceB = pi.nonceE then synthNonceBytes rng
      else nonceRegion pi) = synthNonceBytes rng := if_pos hnon
  simp only [propagate_interest, hkey, hfresh]
  refine ⟨trivial, _, _, rfl, rfl, rfl, ?_, ?_, ?_⟩
  · simp [synthNonceBytes]
  · exact pe_next_usec_sum _ _
  · norm_num [CCN_INTEREST_LIFETIME_MICROSEC]

/-- Concrete instantiation of `C6_synthesized_nonce_and_lifetime`: an
Interest with empty Nonce region against an empty PIT. -/
theorem C6_synthesized_nonce_and_lifetime_witness :
    propagating_lookup ([] : List PropEntry)
        (synthNonceBytes (fun i => i)) = none ∧
    (propagate_interest ⟨[], [], [], 0, 0⟩ ⟨1, CCN_FACE_GG, 0⟩
        ⟨[9], 1, 1, 1, 2, false⟩ ⟨[], [], 0, 0, 0⟩ [] none
        (fun i => i) 0).2 = 0 :=
  ⟨rfl,
   (C6_synthesized_nonce_and_lifetime ⟨[], [], [], 0, 0⟩ ⟨1, CCN_FACE_GG, 0⟩
      ⟨[9], 1, 1, 1, 2, false⟩ ⟨[], [], 0, 0, 0⟩ [] none
      (fun i => i) 0 rfl rfl).1⟩

/-- C1: an incoming Interest that passes the scope admission test and whose
Nonce bytes already key a live PIT entry is handled by the duplicate path:
the arriving face's id is removed from the existing entry's outbound set and
the Interest is dropped — the PIT keeps exactly the same entries (same
count), no `do_propagate` event is scheduled, the face table (and with it
every `pending_interests` counter, in particular the origin face's) is
unchanged, and only `interests_dropped` advances. -/
theorem C1_duplicate_nonce_idempotence (s : DState) (face : Face)
    (pi : PInterest) (npe : NPE) (npeList : List PropEntry) (cs : CSOracle)
    (rng : Nat → Nat) (r : Nat) (pe : PropEntry)
    (hscope : ¬(0 ≤ pi.scope ∧ pi.scope < 2 ∧
      hasFlag face.flags CCN_FACE_GG = false))
    (hnonce : pi.nonceB < pi.nonceE)
    (hmem : pe ∈ s.propagating) (hkey : pe.nonce = nonceRegion pi)
    ( _hlive : pe.interest_msg ≠ none) :
    process_incoming_interest s face pi npe npeList cs rng r =
      ⟨⟨s.faces,
        remove_from_outbound s.propagating (nonceRegion pi) face.faceid,
        s.scheduled, s.interests_dropped + 1, s.interests_accepted⟩,
       false, .dupDropped⟩ ∧
    (process_incoming_interest s face pi npe npeList cs rng
        r).state.propagating.length = s.propagating.length := by
  obtain ⟨q, hq⟩ := Option.isSome_iff_exists.mp
    (propagating_lookup_isSome hmem hkey)
  have hdup : is_duplicate_flooded s pi face.faceid =
      ({ s with propagating :=
          remove_from_outbound s.propagating (nonceRegion pi) face.faceid },
       true) := by
    rw [is_duplicate_flooded, if_neg (by omega), hq]
  have hmain : process_incoming_interest s face pi npe npeList cs rng r =
      ⟨⟨s.faces,
        remove_from_outbound s.propagating (nonceRegion pi) face.faceid,
        s.scheduled, s.interests_dropped + 1, s.interests_accepted⟩,
       false, .dupDropped⟩ := by
    rw [process_incoming_interest, if_neg hscope]
    simp only [hdup]
    simp
  refine ⟨hmain, ?_⟩
  rw [hmain]
  exact remove_from_outbound_length s.propagating (nonceRegion pi) face.faceid

/-- Concrete instantiation of `C1_duplicate_nonce_idempotence`: a duplicate
of the Interest whose Nonce byte `[77]` keys the single live PIT entry,
arriving on GG face 3; face 3 is removed from the entry's outbound set and
the PIT still has exactly one entry. -/
theorem C1_duplicate_nonce_idempotence_witness :
    (⟨[77], some [10, 77, 11], 3, 2, 100, some [3, 5], 0⟩ : PropEntry) ∈
      ([⟨[77], some [10, 77, 11], 3, 2, 100, some [3, 5], 0⟩] :
        List PropEntry) ∧
    process_incoming_interest
        ⟨[⟨3, CCN_FACE_GG, 0⟩], [⟨[77], some [10, 77, 11], 3, 2, 100,
          some [3, 5], 0⟩], [], 0, 0⟩
        ⟨3, CCN_FACE_GG, 0⟩ ⟨[10, 77, 11], 1, 2, 2, -1, false⟩
        ⟨[], [], 0, 0, 0⟩ [] ⟨false, false⟩ (fun i => i) 0 =
      ⟨⟨[⟨3, CCN_FACE_GG, 0⟩], [⟨[77], some [10, 77, 11], 3, 2, 100,
          some [5], 0⟩], [], 1, 0⟩,
       false, .dupDropped⟩ := by
  refine ⟨by decide, ?_⟩
  have h := (C1_duplicate_nonce_idempotence
    ⟨[⟨3, CCN_FACE_GG, 0⟩], [⟨[77], some [10, 77, 11], 3, 2, 100,
      some [3, 5], 0⟩], [], 0, 0⟩
    ⟨3, CCN_FACE_GG, 0⟩ ⟨[10, 77, 11], 1, 2, 2, -1, false⟩
    ⟨[], [], 0, 0, 0⟩ [] ⟨false, false⟩ (fun i => i) 0
    ⟨[77], some [10, 77, 11], 3, 2, 100, some [3, 5], 0⟩
    (by decide) (by decide) (by decide) (by decide) (by decide)).1
  rw [h]
  decide

/-- The state, face and Interest of the C2 counterexample: a scope-0
Interest with `CCN_AOK_CS` set arriving on a GG-flagged face, with a
content-store match available. -/
def c2_state : DState := ⟨[⟨1, CCN_FACE_GG, 0⟩], [], [], 0, 0⟩

/-- C2 as frozen is false on the code: an incoming Interest with scope 0
arriving on a GG face is *not* rejected — the admission test at lines
2590-2593 only rejects scope < 2 when the arriving face lacks the GG flag.
This scope-0 Interest proceeds to the content-store lookup and even creates
a PIT entry to consume the matched content. -/
theorem C2_scope0_gg_not_rejected :
    (process_incoming_interest c2_state ⟨1, CCN_FACE_GG, 0⟩
        ⟨[9], 1, 1, 1, 0, true⟩ ⟨[], [], 0, 0, 0⟩ [] ⟨true, false⟩
        (fun i => i) 0).outcome ≠ .outOfScope ∧
    (process_incoming_interest c2_state ⟨1, CCN_FACE_GG, 0⟩
        ⟨[9], 1, 1, 1, 0, true⟩ ⟨[], [], 0, 0, 0⟩ [] ⟨true, false⟩
        (fun i => i) 0).csConsulted = true ∧
    (process_incoming_interest c2_state ⟨1, CCN_FACE_GG, 0⟩
        ⟨[9], 1, 1, 1, 0, true⟩ ⟨[], [], 0, 0, 0⟩ [] ⟨true, false⟩
        (fun i => i) 0).state.propagating.length = 1 := by
  refine ⟨by decide, by decide, by decide⟩

/-- C2 (amended): every incoming Interest with scope 0 *or* scope 1 that
arrives on a face without the GG flag is rejected — silently dropped with a
debug log, before any content-store lookup, PIT entry creation, or
propagation (the state is returned unchanged); a scope-0 Interest arriving
on a GG face is not rejected, but it is never propagated along the FIB. -/
theorem C2_amended_scope_admission (s : DState) (face : Face)
    (pi : PInterest) (npe : NPE) (npeList : List PropEntry) (cs : CSOracle)
    (rng : Nat → Nat) (r : Nat) :
    (0 ≤ pi.scope → pi.scope < 2 → hasFlag face.flags CCN_FACE_GG = false →
      process_incoming_interest s face pi npe npeList cs rng r =
        ⟨s, false, .outOfScope⟩) ∧
    (pi.scope = 0 →
      (process_incoming_interest s face pi npe npeList cs rng r).outcome ≠
        .propagated) := by
  constructor
  · intro h0 h1 hgg
    rw [process_incoming_interest, if_pos ⟨h0, h1, hgg⟩]
  · intro hsc
    rw [process_incoming_interest]
    by_cases hadm : 0 ≤ pi.scope ∧ pi.scope < 2 ∧
        hasFlag face.flags CCN_FACE_GG = false
    · rw [if_pos hadm]
      simp
    · rw [if_neg hadm]
      by_cases hdup : (is_duplicate_flooded s pi face.faceid).2
      · simp only [hdup, if_true]
        simp
      · simp only [hdup, if_false, Bool.false_eq_true]
        by_cases hcs : pi.aok_cs = true ∧ cs.matchFound = true
        · rw [if_pos hcs]
          by_cases hq : cs.alreadyQueued
          · rw [if_pos hq]
            simp
          · rw [if_neg hq]
            simp
        · rw [if_neg hcs, if_neg (by simp [hsc])]
          simp

/-- Concrete instantiations of `C2_amended_scope_admission`: a scope-1
Interest on a plain INET face is rejected with the state unchanged, and a
scope-0 Interest on a GG face (the counterexample configuration, with no
content-store match this time) is not propagated. -/
theorem C2_amended_scope_admission_witness :
    process_incoming_interest ⟨[], [], [], 0, 0⟩ ⟨2, CCN_FACE_INET, 0⟩
        ⟨[9], 1, 1, 1, 1, false⟩ ⟨[], [], 0, 0, 0⟩ [] ⟨false, false⟩
        (fun i => i) 0 =
      ⟨⟨[], [], [], 0, 0⟩, false, .outOfScope⟩ ∧
    (process_incoming_interest c2_state ⟨1, CCN_FACE_GG, 0⟩
        ⟨[9], 1, 1, 1, 0, false⟩ ⟨[], [], 0, 0, 0⟩ [] ⟨false, false⟩
        (fun i => i) 0).outcome ≠ .propagated :=
  ⟨(C2_amended_scope_admission ⟨[], [], [], 0, 0⟩ ⟨2, CCN_FACE_INET, 0⟩
      ⟨[9], 1, 1, 1, 1, false⟩ ⟨[], [], 0, 0, 0⟩ [] ⟨false, false⟩
      (fun i => i) 0).1 (by decide) (by decide) (by decide),
   (C2_amended_scope_admission c2_state ⟨1, CCN_FACE_GG, 0⟩
      ⟨[9], 1, 1, 1, 0, false⟩ ⟨[], [], 0, 0, 0⟩ [] ⟨false, false⟩
      (fun i => i) 0).2 (by decide)⟩

/-! ## Claim C3: the pending-interest accounting invariant

The counter `face->pending_interests` is touched in exactly two places:
`propagate_interest` increments it when a new PIT entry is created
(`ccnd.c` line 2402) and `consume` decrements it when a live entry is
consumed and its origin face still exists (`ccnd.c` lines 605-616).  Faces
are created by `enroll_face` (lines 191-222, counter starts at 0) and
destroyed by `finalize_face` via `shutdown_client_fd` (lines 282-309 and
897-919) — which does *not* touch the PIT, so a face can die leaving its
live entries behind.  The faceid generation scheme keeps identifiers unique
over time, modelled by a fresh-id counter. -/

/-- The face-table / PIT fragment of the daemon state that the counter
invariant ranges over: the live faces, the origins of the live PIT entries
(entries with non-NULL `interest_msg`), and the fresh-faceid source. -/
structure C3State where
  faces : List Face
  pit : List Nat
  nextId : Nat
deriving DecidableEq, Repr

/-- Whether a faceid denotes a live face. -/
def isLiveFace (faces : List Face) (fid : Nat) : Bool :=
  (face_from_faceid faces fid).isSome

/-- The number of live PIT entries whose origin is the given faceid. -/
def countOrigin (pit : List Nat) (fid : Nat) : Nat :=
  (pit.filter (fun o => o = fid)).length

/-- Add `d` to the pending-interest counter of the face with id `fid`. -/
def bumpPending (faces : List Face) (fid : Nat) (d : Int) : List Face :=
  faces.map (fun f =>
    if f.faceid = fid
    then { f with pending_interests := f.pending_interests + d }
    else f)

/-- The transitions of the daemon that touch the face table or the PIT. -/
inductive C3Step : C3State → C3State → Prop
  /-- `enroll_face` (`ccnd.c` lines 191-222): a new face with a fresh
  faceid; `calloc` starts its `pending_interests` at 0. -/
  | enroll_face (s : C3State) (flags : Nat) :
      C3Step s ⟨s.faces ++ [⟨s.nextId, flags, 0⟩], s.pit, s.nextId + 1⟩
  /-- `finalize_face` via `shutdown_client_fd` (`ccnd.c` lines 282-309,
  897-919): the face is destroyed; its live PIT entries are left behind
  (nothing in the teardown path touches `propagating_tab`). -/
  | finalize_face (g1 g2 : List Face) (f : Face) (s : C3State)
      (h : s.faces = g1 ++ f :: g2) :
      C3Step s ⟨g1 ++ g2, s.pit, s.nextId⟩
  /-- The `HT_NEW_ENTRY` arm of `propagate_interest` (`ccnd.c` lines
  2389-2421): a new live PIT entry originating at a live face, whose
  counter is incremented (line 2402). -/
  | propagate_interest (s : C3State) (f : Face) (hmem : f ∈ s.faces) :
      C3Step s ⟨bumpPending s.faces f.faceid 1, f.faceid :: s.pit, s.nextId⟩
  /-- `consume` (`ccnd.c` lines 605-623): a live PIT entry is consumed; the
  origin face's counter is decremented only when that face still exists
  (lines 613-615). -/
  | consume (l1 l2 : List Nat) (o : Nat) (s : C3State)
      (h : s.pit = l1 ++ o :: l2) :
      C3Step s ⟨if isLiveFace s.faces o then bumpPending s.faces o (-1)
                else s.faces,
                l1 ++ l2, s.nextId⟩

/-- The daemon states reachable from the initial (empty) state. -/
inductive C3Reachable : C3State → Prop
  | init : C3Reachable ⟨[], [], 0⟩
  | step {s s' : C3State} (h : C3Reachable s) (hs : C3Step s s') :
      C3Reachable s'

/-- The inductive invariant: per-face counter correctness plus the
freshness bookkeeping that sustains it. -/
def C3Inv (s : C3State) : Prop :=
  (∀ f ∈ s.faces, f.pending_interests = (countOrigin s.pit f.faceid : Int)) ∧
  (∀ f ∈ s.faces, f.faceid < s.nextId) ∧
  (∀ o ∈ s.pit, o < s.nextId) ∧
  (s.faces.map Face.faceid).Nodup

lemma countOrigin_cons (o : Nat) (pit : List Nat) (fid : Nat) :
    countOrigin (o :: pit) fid =
      (if o = fid then 1 else 0) + countOrigin pit fid := by
  rw [countOrigin, countOrigin, List.filter_cons]
  by_cases h : o = fid
  all_goals simp [h]
  all_goals omega

lemma countOrigin_append (l1 l2 : List Nat) (fid : Nat) :
    countOrigin (l1 ++ l2) fid = countOrigin l1 fid + countOrigin l2 fid := by
  simp [countOrigin, List.filter_append]

lemma countOrigin_eq_zero {pit : List Nat} {fid : Nat}
    (h : ∀ o ∈ pit, o ≠ fid) : countOrigin pit fid = 0 := by
  induction pit with
  | nil => rfl
  | cons hd tl ih =>
    rw [countOrigin_cons, if_neg (h hd (List.mem_cons_self hd tl)),
      ih (fun o ho => h o (List.mem_cons_of_mem hd ho))]

lemma countOrigin_pos {pit : List Nat} {fid o : Nat}
    (hmem : o ∈ pit) (heq : o = fid) : 1 ≤ countOrigin pit fid := by
  subst heq
  rw [countOrigin]
  have hm : o ∈ pit.filter (fun x => x = o) :=
    List.mem_filter.mpr ⟨hmem, by simp⟩
  exact List.length_pos.mpr (List.ne_nil_of_mem hm)

lemma bumpPending_map_faceid (faces : List Face) (fid : Nat) (d : Int) :
    (bumpPending faces fid d).map Face.faceid = faces.map Face.faceid := by
  induction faces with
  | nil => rfl
  | cons hd tl ih =>
    rw [bumpPending, List.map_cons, List.map_cons, List.map_cons,
      ← bumpPending, ih]
    by_cases h : hd.faceid = fid
    · rw [if_pos h]
    · rw [if_neg h]

lemma isLiveFace_eq_false {faces : List Face} {o : Nat} :
    isLiveFace faces o = false ↔ ∀ f ∈ faces, f.faceid ≠ o := by
  induction faces with
  | nil => simp [isLiveFace, face_from_faceid]
  | cons hd tl ih =>
    rw [isLiveFace, face_from_faceid]
    by_cases hh : hd.faceid = o
    · rw [List.find?_cons_of_pos _ (by simpa using hh)]
      constructor
      · intro h
        simp at h
      · intro h
        exact absurd hh (h hd (List.mem_cons_self hd tl))
    · rw [List.find?_cons_of_neg _ (by simpa using hh)]
      rw [← face_from_faceid, ← isLiveFace, ih]
      constructor
      · intro h f hf
        rcases List.mem_cons.mp hf with rfl | hf'
        · exact hh
        · exact h f hf'
      · intro h f hf
        exact h f (List.mem_cons_of_mem hd hf)

lemma isLiveFace_of_mem {faces : List Face} {f : Face} (h : f ∈ faces) :
    isLiveFace faces f.faceid = true := by
  rw [isLiveFace]
  rw [face_from_faceid, List.find?_isSome]
  exact ⟨f, h, by simp⟩

lemma c3inv_step {s s' : C3State} (hs : C3Step s s') (hinv : C3Inv s) :
    C3Inv s' := by
  obtain ⟨h1, h2, h3, h4⟩ := hinv
  cases hs with
  | enroll_face s flags =>
    refine ⟨?_, ?_, ?_, ?_⟩
    · intro f hf
      rcases List.mem_append.mp hf with hf' | hf'
      · exact h1 f hf'
      · have : f = ⟨s.nextId, flags, 0⟩ := by simpa using hf'
        subst this
        have : countOrigin s.pit s.nextId = 0 :=
          countOrigin_eq_zero (fun o ho => by have := h3 o ho; omega)
        simp [this]
    · intro f hf
      dsimp only at hf ⊢
      rcases List.mem_append.mp hf with hf' | hf'
      · have := h2 f hf'
        omega
      · have : f = ⟨s.nextId, flags, 0⟩ := by simpa using hf'
        subst this
        dsimp only
        omega
    · intro o ho
      dsimp only at ho ⊢
      have := h3 o ho
      omega
    · rw [List.map_append]
      refine List.Nodup.append h4 (by simp) ?_
      intro a ha hb
      simp only [List.map_cons, List.map_nil, List.mem_singleton] at hb
      obtain ⟨f, hf, rfl⟩ := List.mem_map.mp ha
      have := h2 f hf
      omega
  | finalize_face g1 g2 f s h =>
    have hsub : (g1 ++ g2).Sublist s.faces := by
      rw [h]
      exact List.Sublist.append_left (List.sublist_cons_self f g2) g1
    refine ⟨?_, ?_, h3, ?_⟩
    · exact fun g hg => h1 g (hsub.mem hg)
    · exact fun g hg => h2 g (hsub.mem hg)
    · exact h4.sublist (hsub.map Face.faceid)
  | propagate_interest s f hmem =>
    refine ⟨?_, ?_, ?_, ?_⟩
    · intro g hg
      obtain ⟨g0, hg0, hgeq⟩ := List.mem_map.mp hg
      by_cases hid : g0.faceid = f.faceid
      · rw [if_pos hid] at hgeq
        subst hgeq
        simp only [countOrigin_cons, if_pos hid.symm]
        have := h1 g0 hg0
        push_cast
        omega
      · rw [if_neg hid] at hgeq
        subst hgeq
        rw [countOrigin_cons, if_neg (fun hh => hid hh.symm)]
        simpa using h1 g0 hg0
    · intro g hg
      obtain ⟨g0, hg0, hgeq⟩ := List.mem_map.mp hg
      have hb := h2 g0 hg0
      by_cases hid : g0.faceid = f.faceid
      · rw [if_pos hid] at hgeq
        subst hgeq
        exact hb
      · rw [if_neg hid] at hgeq
        subst hgeq
        exact hb
    · intro o ho
      rcases List.mem_cons.mp ho with rfl | ho'
      · exact h2 f hmem
      · exact h3 o ho'
    · rw [bumpPending_map_faceid]
      exact h4
  | consume l1 l2 o s h =>
    by_cases hlive : isLiveFace s.faces o = true
    · rw [if_pos hlive]
      refine ⟨?_, ?_, ?_, ?_⟩
      · intro g hg
        obtain ⟨g0, hg0, hgeq⟩ := List.mem_map.mp hg
        have hc := h1 g0 hg0
        rw [h] at hc
        rw [countOrigin_append, countOrigin_cons] at hc
        by_cases hid : g0.faceid = o
        · rw [if_pos hid] at hgeq
          subst hgeq
          rw [if_pos hid.symm] at hc
          simp only [countOrigin_append]
          push_cast at hc ⊢
          omega
        · rw [if_neg hid] at hgeq
          subst hgeq
          rw [if_neg (fun hh => hid hh.symm)] at hc
          simp only [countOrigin_append]
          push_cast at hc ⊢
          omega
      · intro g hg
        obtain ⟨g0, hg0, hgeq⟩ := List.mem_map.mp hg
        have hb := h2 g0 hg0
        by_cases hid : g0.faceid = o
        · rw [if_pos hid] at hgeq
          subst hgeq
          exact hb
        · rw [if_neg hid] at hgeq
          subst hgeq
          exact hb
      · intro o' ho'
        apply h3
        rw [h]
        rcases List.mem_append.mp ho' with hh | hh
        · exact List.mem_append.mpr (Or.inl hh)
        · exact List.mem_append.mpr (Or.inr (List.mem_cons_of_mem o hh))
      · rw [bumpPending_map_faceid]
        exact h4
    · rw [if_neg hlive]
      have hnot : ∀ g ∈ s.faces, g.faceid ≠ o :=
        isLiveFace_eq_false.mp (Bool.not_eq_true _ ▸ hlive)
      refine ⟨?_, h2, ?_, h4⟩
      · intro g hg
        have hc := h1 g hg
        rw [h] at hc
        rw [countOrigin_append, countOrigin_cons,
          if_neg (fun hh => hnot g hg hh.symm)] at hc
        rw [countOrigin_append]
        push_cast at hc ⊢
        omega
      · intro o' ho'
        apply h3
        rw [h]
        rcases List.mem_append.mp ho' with hh | hh
        · exact List.mem_append.mpr (Or.inl hh)
        · exact List.mem_append.mpr (Or.inr (List.mem_cons_of_mem o hh))

lemma c3inv_reachable {s : C3State} (h : C3Reachable s) : C3Inv s := by
  induction h with
  | init =>
    refine ⟨?_, ?_, ?_, ?_⟩ <;> simp [C3Inv]
  | step _ hs ih => exact c3inv_step hs ih

lemma sum_indicator (faces : List Face) (o : Nat)
    (hnodup : (faces.map Face.faceid).Nodup) :
    (faces.map (fun f => if o = f.faceid then (1 : Int) else 0)).sum =
      if isLiveFace faces o then 1 else 0 := by
  induction faces with
  | nil => simp [isLiveFace, face_from_faceid]
  | cons hd tl ih =>
    simp only [List.map_cons, List.nodup_cons] at hnodup
    rw [List.map_cons, List.sum_cons]
    by_cases hh : o = hd.faceid
    · rw [if_pos hh]
      have hzero : ∀ f ∈ tl, o ≠ f.faceid := by
        intro f hf he
        apply hnodup.1
        rw [← hh, he]
        exact List.mem_map_of_mem _ hf
      have hsum : (tl.map (fun f => if o = f.faceid then (1 : Int) else 0)).sum
          = 0 := by
        rw [ih hnodup.2]
        rw [if_neg]
        rw [Bool.not_eq_true, isLiveFace_eq_false]
        exact fun f hf he => hzero f hf he.symm
      rw [hsum]
      rw [if_pos (hh ▸ isLiveFace_of_mem (List.mem_cons_self hd tl))]
      ring
    · rw [if_neg hh, ih hnodup.2]
      have hskip : isLiveFace (hd :: tl) o = isLiveFace tl o := by
        rw [isLiveFace, isLiveFace, face_from_faceid, face_from_faceid]
        rw [List.find?_cons_of_neg]
        simp only [beq_iff_eq]
        exact fun he => hh he.symm
      rw [hskip]
      ring
lemma sum_map_add_int (l : List Face) (f g : Face → Int) :
    (l.map (fun x => f x + g x)).sum = (l.map f).sum + (l.map g).sum := by
  induction l with
  | nil => simp
  | cons hd tl ih =>
    simp only [List.map_cons, List.sum_cons, ih]
    ring

lemma sum_countOrigin (faces : List Face) (pit : List Nat)
    (hnodup : (faces.map Face.faceid).Nodup) :
    (faces.map (fun f => (countOrigin pit f.faceid : Int))).sum =
      ((pit.filter (fun o => isLiveFace faces o)).length : Int) := by
  induction pit with
  | nil =>
    simp [countOrigin]
  | cons o rest ih =>
    have hcons : faces.map (fun f => (countOrigin (o :: rest) f.faceid : Int))
        = faces.map (fun f => (if o = f.faceid then (1 : Int) else 0) +
            (countOrigin rest f.faceid : Int)) := by
      apply List.map_congr_left
      intro f _
      rw [countOrigin_cons]
      by_cases hh : o = f.faceid
      · rw [if_pos hh, if_pos hh]
        push_cast
        ring
      · rw [if_neg hh, if_neg hh]
        push_cast
        ring
    rw [hcons, sum_map_add_int, sum_indicator faces o hnodup, ih,
      List.filter_cons]
    by_cases hl : isLiveFace faces o = true
    · rw [if_pos hl, if_pos hl]
      simp only [List.length_cons]
      push_cast
      ring
    · rw [if_neg hl, if_neg hl]
      ring

/-- C3 (amended): in every reachable daemon state, each live face's
`pending_interests` counter equals the number of live PIT entries whose
origin is that face; hence every live PIT entry whose origin face is still
live contributes at least 1 to that face's counter, and the sum of the
counters over all faces equals the number of live PIT entries *whose origin
face is live*.  (A face can be destroyed while it still has pending
interests — `finalize_face` does not touch the PIT — after which the
unrestricted sum equality fails; see the counterexample.) -/
theorem C3_pending_interest_accounting (s : C3State) (h : C3Reachable s) :
    (∀ f ∈ s.faces,
      f.pending_interests = (countOrigin s.pit f.faceid : Int)) ∧
    (∀ o ∈ s.pit, ∀ f ∈ s.faces, f.faceid = o →
      1 ≤ f.pending_interests) ∧
    ((s.faces.map Face.pending_interests).sum =
      ((s.pit.filter (fun o => isLiveFace s.faces o)).length : Int)) := by
  obtain ⟨h1, _, _, h4⟩ := c3inv_reachable h
  refine ⟨h1, ?_, ?_⟩
  · intro o ho f hf hfo
    rw [h1 f hf]
    have := countOrigin_pos ho hfo.symm
    omega
  · have hmap : s.faces.map Face.pending_interests =
        s.faces.map (fun f => (countOrigin s.pit f.faceid : Int)) :=
      List.map_congr_left (fun f hf => h1 f hf)
    rw [hmap]
    exact sum_countOrigin s.faces s.pit h4

/-- The reachable state of the counterexample: enroll face 0, let it send
one Interest (counter 1, one live PIT entry), then tear the face down. -/
def c3_bad : C3State := ⟨[], [0], 1⟩

/-- C3 as frozen is false on the code: after face 0 — holding one pending
interest — is destroyed, the daemon is in a reachable state with one live
PIT entry but no face, so the sum of `pending_interests` over all faces (0)
differs from the number of live PIT entries (1).  `finalize_face` /
`shutdown_client_fd` do not consume the PIT entries of the dying face. -/
theorem C3_sum_equality_fails_after_face_death :
    C3Reachable c3_bad ∧
    ¬((c3_bad.faces.map Face.pending_interests).sum =
        (c3_bad.pit.length : Int)) := by
  constructor
  · have h0 : C3Reachable ⟨[], [], 0⟩ := C3Reachable.init
    have h1 := C3Reachable.step h0 (C3Step.enroll_face ⟨[], [], 0⟩ 16)
    have h2 := C3Reachable.step h1
      (C3Step.propagate_interest ⟨[⟨0, 16, 0⟩], [], 1⟩ ⟨0, 16, 0⟩
        (by decide))
    have h3 := C3Reachable.step h2
      (C3Step.finalize_face [] [] ⟨0, 16, 1⟩ ⟨[⟨0, 16, 1⟩], [0], 1⟩ rfl)
    exact h3
  · decide

/-- Concrete instantiation of `C3_pending_interest_accounting`, at the
reachable state with one live face holding one pending interest. -/
theorem C3_pending_interest_accounting_witness :
    (([(⟨0, 16, 1⟩ : Face)].map Face.pending_interests).sum =
      ((([0].filter (fun o => isLiveFace [(⟨0, 16, 1⟩ : Face)] o)).length :
        Nat) : Int)) :=
  (C3_pending_interest_accounting ⟨[⟨0, 16, 1⟩], [0], 1⟩
    (C3Reachable.step
      (C3Reachable.step C3Reachable.init (C3Step.enroll_face ⟨[], [], 0⟩ 16))
      (C3Step.propagate_interest ⟨[⟨0, 16, 0⟩], [], 1⟩ ⟨0, 16, 0⟩
        (by decide)))).2.2

end Ccnd
